import Mathlib

/-!
Verification of the image-to-tensor conversion pipeline
(`binaries/convert_image_to_tensor.cc`).

The development is a shallow embedding of the program.  Machine `int`
values become `Int` (dimensions of a decoded image are never negative and
are kept as `Nat`), `float` arithmetic is carried out exactly over `ℚ`
(the structural claims checked here do not depend on rounding), and the
fatal paths (`assert`, `CAFFE_ENFORCE`) become the `Except.error` branch
of `Except String`.  External collaborators — the image decoder
(`cv::imread`), the resampler (`cv::resize`) and the file reader — are
parameters of the definitions that use them.
-/

namespace ConvertImageToTensor

/-- A decoded image: `cv::Mat` with `rows × cols` pixels of type `α`,
stored row-major (`data` is the list of rows). -/
structure Mat (α : Type) where
  rows : Nat
  cols : Nat
  data : List (List α)
  deriving Repr, DecidableEq

/-- The in-memory grid is well-formed: `data` really has `rows` rows of
`cols` pixels each (always true of a `cv::Mat`). -/
def Mat.wf {α : Type} (m : Mat α) : Prop :=
  m.data.length = m.rows ∧ ∀ row ∈ m.data, row.length = m.cols

instance {α : Type} (m : Mat α) : Decidable m.wf := by
  unfold Mat.wf; infer_instance

/-- A color pixel: the three `uchar` samples of a `cv::Vec3b`,
indexed 0 = B, 1 = G, 2 = R as delivered by the decoder. -/
def Col : Type := Fin 3 → Nat

/-- A decoded image is either grayscale (`CV_8UC1`, samples iterated as
`uchar`) or color (`CV_8UC3`, pixels iterated as `cv::Vec3b`); which one
is fixed by the `color` flag passed to `cv::imread`. -/
inductive Img where
  | gray : Mat Nat → Img
  | color : Mat Col → Img

def Img.rows : Img → Nat
  | .gray m => m.rows
  | .color m => m.rows

def Img.cols : Img → Nat
  | .gray m => m.cols
  | .color m => m.cols

/-- Channel count of the decoded image (the `C` of the output tensor). -/
def Img.channels : Img → Nat
  | .gray _ => 1
  | .color _ => 3

/-- The command-line configuration of one run.  `FLAGS_crop` is the string
"h,w" parsed with `std::stoi` into two ints, embedded here directly as the
two integers; `FLAGS_preprocess` is split at commas into the step list,
embedded directly as the list (`caffe2::split` of the empty default yields
the empty list). -/
structure Cfg where
  color : Bool
  cropH : Int
  cropW : Int
  input_images : String
  input_image_file : String
  preprocess : List String
  scale : Int
  text_output : Bool
  warp : Bool

/-- The `std::getline` tokenizer loop of `caffe2::split(',', s)` over the
character sequence: consecutive commas yield empty tokens, a trailing
comma yields no extra token, and the empty string yields no tokens at
all. -/
def csplitChars : List Char → List String
  | [] => []
  | c :: rest =>
    if c = ',' then "" :: csplitChars rest
    else
      match csplitChars rest with
      | [] => [String.mk [c]]
      | t :: ts => String.mk (c :: t.data) :: ts

/-- `caffe2::split(',', s)`. -/
def csplit (s : String) : List String := csplitChars s.data

/-- The defensive path check `filename[0] == '~'` (for the empty string,
`std::string::operator[]` at index 0 yields the null character, which is
not `~`). -/
def startsWithTilde (s : String) : Bool :=
  match s.data with
  | [] => false
  | c :: _ => c = '~'

/-- The normalization parameters accumulated over the preprocess steps in
`convertToVector`: per-channel divisors `normalize` (default 1), per-channel
subtrahends `mean` (default 0), per-channel divisors `std` (default 1) and
the `bgrtorgb` channel-swap flag (default false). -/
structure PreState where
  normalize : Fin 3 → ℚ
  mean : Fin 3 → ℚ
  std : Fin 3 → ℚ
  bgrtorgb : Bool

/-- Initial parameter values (`vector<float> normalize(3, 1)`,
`mean(3, 0)`, `std(3, 1)`, `bool bgrtorgb = false`). -/
def initState : PreState :=
  { normalize := ![1, 1, 1], mean := ![0, 0, 0], std := ![1, 1, 1], bgrtorgb := false }

/-- One iteration of the step loop in `convertToVector`; the final
`CAFFE_ENFORCE(false, ...)` arm is the fatal configuration error. -/
def applyStep (s : PreState) (step : String) : Except String PreState :=
  if step = "subtract128" then
    .ok { s with mean := ![128, 128, 128], std := ![1, 1, 1], normalize := ![1, 1, 1] }
  else if step = "normalize" then
    .ok { s with normalize := ![255, 255, 255] }
  else if step = "mean" then
    .ok { s with mean := ![0.406, 0.456, 0.485] }
  else if step = "std" then
    .ok { s with std := ![0.225, 0.224, 0.229] }
  else if step = "bgrtorgb" then
    .ok { s with bgrtorgb := true }
  else
    .error "Unsupported preprocess step"

/-- The step loop of `convertToVector`, applied in list order. -/
def applySteps : List String → PreState → Except String PreState
  | [], s => .ok s
  | step :: rest, s =>
    match applyStep s step with
    | .ok s' => applySteps rest s'
    | .error e => .error e

/-- The per-sample arithmetic `(src / normalize[k] - mean[k]) / std[k]`. -/
def normPix (s : PreState) (k : Fin 3) (v : Nat) : ℚ :=
  ((v : ℚ) / s.normalize k - s.mean k) / s.std k

/-- The grayscale fill loop (`C == 1` branch): iterate the samples in
row-major order with a running index, writing `values[idx++]`. -/
def fillGray (s : PreState) : List Nat → Nat → List ℚ → List ℚ
  | [], _, values => values
  | v :: rest, idx, values =>
    fillGray s rest (idx + 1) (values.set idx (normPix s 0 v))

/-- The color fill loop (`C == 3` branch): for pixel `i` write plane
positions `i`, `size + i`, `size + (size + i)` from source channels
`b`, `g`, `r`, where `b = bgrtorgb ? 2 : 0`, `g = 1`,
`r = bgrtorgb ? 0 : 2`. -/
def fillColor (s : PreState) (size : Nat) : List Col → Nat → List ℚ → List ℚ
  | [], _, values => values
  | p :: rest, i, values =>
    let b : Fin 3 := if s.bgrtorgb then 2 else 0
    let r : Fin 3 := if s.bgrtorgb then 0 else 2
    fillColor s size rest (i + 1)
      (((values.set i (normPix s 0 (p b))).set
          (size + i) (normPix s 1 (p 1))).set
        (size + (size + i)) (normPix s 2 (p r)))

/-- `convertToVector`: fold the preprocess steps into a `PreState`, then
fill the output vector of `total_size = C * size` entries,
`size = cols * rows`.  In the source the branch between the two loops is
`C == 1` with `C = FLAGS_color ? 3 : 1`; the iterator type it selects
always matches the element type of the decoded mat, which the embedding
makes explicit by matching on the `Img` constructor. -/
def convertToVector (steps : List String) (img : Img) : Except String (List ℚ) :=
  match applySteps steps initState with
  | .error e => .error e
  | .ok s =>
    match img with
    | .gray m =>
      let size := m.cols * m.rows
      .ok (fillGray s m.data.flatten 0 (List.replicate (1 * size) 0))
    | .color m =>
      let size := m.cols * m.rows
      .ok (fillColor s size m.data.flatten 0 (List.replicate (3 * size) 0))

/-- `resizeImage`: no-op for `FLAGS_scale <= 0`; otherwise the shorter
edge becomes `scale` and the longer edge becomes
`(float)longer * scale / shorter` truncated to int (the float arithmetic
is carried out exactly over `ℚ`; the value is nonnegative, so truncation
toward zero is the floor).  The resampling of the pixel data by
`cv::resize` is the external parameter `resample`; its contract is that
the produced mat has the requested size. -/
def resizeImage {α : Type} (resample : Mat α → Nat → Nat → List (List α))
    (scale : Int) (img : Mat α) : Mat α :=
  if scale ≤ 0 then img
  else
    let dims : Nat × Nat :=
      if img.rows > img.cols then
        ((⌊((img.rows : ℚ) * (scale : ℚ) / (img.cols : ℚ))⌋).toNat, scale.toNat)
      else
        (scale.toNat, (⌊((img.cols : ℚ) * (scale : ℚ) / (img.rows : ℚ))⌋).toNat)
    { rows := dims.1, cols := dims.2, data := resample img dims.1 dims.2 }

/-- `cropToRec(img, height, width)`.  The C++ mutates `height`/`width`
through references; the embedding returns the cropped mat together with
the updated pair.  `roi.x = (img.cols - width) / 2` uses C `int` division,
i.e. truncation toward zero (`Int.tdiv`), computed from the *requested*
width before clamping; negative offsets are clamped to 0; the requested
sizes are then clamped to the image sizes.  `clone()` makes the result a
contiguous `effectiveH × effectiveW` copy. -/
def roiX {α : Type} (img : Mat α) (width : Int) : Int :=
  max 0 (((img.cols : Int) - width).tdiv 2)

def roiY {α : Type} (img : Mat α) (height : Int) : Int :=
  max 0 (((img.rows : Int) - height).tdiv 2)

/-- The effective crop width after `width = width > img.cols ? img.cols : width`. -/
def effW {α : Type} (img : Mat α) (width : Int) : Int := min width (img.cols : Int)

/-- The effective crop height after `height = height > img.rows ? img.rows : height`. -/
def effH {α : Type} (img : Mat α) (height : Int) : Int := min height (img.rows : Int)

def cropToRec {α : Type} (img : Mat α) (height width : Int) : Mat α × Int × Int :=
  if 0 < height ∧ 0 < width ∧ ((img.rows : Int) ≠ height ∨ (img.cols : Int) ≠ width) then
    let cropped : Mat α :=
      { rows := (effH img height).toNat
        cols := (effW img width).toNat
        data := ((img.data.drop (roiY img height).toNat).take (effH img height).toNat).map
          (fun row => (row.drop (roiX img width).toNat).take (effW img width).toNat) }
    (cropped, effH img height, effW img width)
  else
    (img, height, width)

/-- Resize step lifted to the decoded image. -/
def resizeImg (resG : Mat Nat → Nat → Nat → List (List Nat))
    (resC : Mat Col → Nat → Nat → List (List Col)) (scale : Int) : Img → Img
  | .gray m => .gray (resizeImage resG scale m)
  | .color m => .color (resizeImage resC scale m)

/-- Crop step lifted to the decoded image. -/
def cropImg : Img → Int → Int → Img × Int × Int
  | .gray m, h, w =>
    let r := cropToRec m h w
    (.gray r.1, r.2)
  | .color m, h, w =>
    let r := cropToRec m h w
    (.color r.1, r.2)

/-- `cv::imread` per the color flag (`decC` / `decG` model the decoder for
the two modes). -/
def loadImage (decC : String → Mat Col) (decG : String → Mat Nat) (cfg : Cfg)
    (filename : String) : Img :=
  if cfg.color then .color (decC filename) else .gray (decG filename)

/-- The crop-request derivation in `convertOneImage`: a nonpositive
requested height or width is replaced by the resized dimensions. -/
def cropSize (cfg : Cfg) (resized : Img) : Int × Int :=
  if cfg.cropH ≤ 0 ∨ cfg.cropW ≤ 0 then ((resized.rows : Int), (resized.cols : Int))
  else (cfg.cropH, cfg.cropW)

/-- The tail of `convertOneImage` after `cropToRec`: the two post-crop
shape `assert`s exactly as written in the source — `crop.rows == height`
and `crop.rows == width` — then `convertToVector`; returns the per-image
vector and the final `height`/`width` out-parameters. -/
def postCrop (steps : List String) (r : Img × Int × Int) :
    Except String (List ℚ × Int × Int) :=
  if (r.1.rows : Int) = r.2.1 then
    if (r.1.rows : Int) = r.2.2 then
      match convertToVector steps r.1 with
      | .ok v => .ok (v, r.2.1, r.2.2)
      | .error e => .error e
    else .error "assert: crop.rows == width"
  else .error "assert: crop.rows == height"

/-- `convertOneImage`: reject a `~`-prefixed path (the leading `assert`),
decode, resize, derive the crop request, crop, check the shape asserts
and normalize. -/
def convertOneImage (decC : String → Mat Col) (decG : String → Mat Nat)
    (resC : Mat Col → Nat → Nat → List (List Col))
    (resG : Mat Nat → Nat → Nat → List (List Nat))
    (cfg : Cfg) (filename : String) : Except String (List ℚ × Int × Int) :=
  if startsWithTilde filename then .error "assert: filename[0] != tilde"
  else
    let resized := resizeImg resG resC cfg.scale (loadImage decC decG cfg filename)
    let hw := cropSize cfg resized
    postCrop cfg.preprocess (cropImg resized hw.1 hw.2)

/-- The input-source selection at the top of `convertImages`: a nonempty
`--input_images` is split at commas; otherwise a nonempty
`--input_image_file` is read line by line (`readLines` models the
`std::ifstream`/`getline` loop), a 3-field comma-separated line
contributing its third field and any other line contributing itself;
otherwise `assert(false)`. -/
def getFileNames (cfg : Cfg) (readLines : String → List String) :
    Except String (List String) :=
  if cfg.input_images ≠ "" then .ok (csplit cfg.input_images)
  else if cfg.input_image_file ≠ "" then
    .ok ((readLines cfg.input_image_file).map fun line =>
      let file_name := csplit line
      if file_name.length = 3 then file_name.getD 2 "" else line)
  else .error "assert(false): no input images"

/-- One iteration of the per-image loop in `convertImages`: convert the
image, then either establish the batch `height`/`width` (first image,
state still `(-1, -1)`) or check them (`assert(height == one_height)`,
`assert(width == one_width)`), and append the vector. -/
def accImage (decC : String → Mat Col) (decG : String → Mat Nat)
    (resC : Mat Col → Nat → Nat → List (List Col))
    (resG : Mat Nat → Nat → Nat → List (List Nat)) (cfg : Cfg)
    (acc : List (List ℚ) × Int × Int) (f : String) :
    Except String (List (List ℚ) × Int × Int) :=
  match convertOneImage decC decG resC resG cfg f with
  | .error e => .error e
  | .ok (v, oh, ow) =>
    if acc.2.1 < 0 ∧ acc.2.2 < 0 then .ok (acc.1 ++ [v], oh, ow)
    else
      if acc.2.1 = oh then
        if acc.2.2 = ow then .ok (acc.1 ++ [v], acc.2.1, acc.2.2)
        else .error "assert: width == one_width"
      else .error "assert: height == one_height"

/-- The per-image loop of `convertImages` over the file list. -/
def accLoop (decC : String → Mat Col) (decG : String → Mat Nat)
    (resC : Mat Col → Nat → Nat → List (List Col))
    (resG : Mat Nat → Nat → Nat → List (List Nat)) (cfg : Cfg) :
    List String → List (List ℚ) × Int × Int →
    Except String (List (List ℚ) × Int × Int)
  | [], acc => .ok acc
  | f :: rest, acc =>
    match accImage decC decG resC resG cfg acc f with
    | .error e => .error e
    | .ok acc' => accLoop decC decG resC resG cfg rest acc'

/-- One entry of the serialized `TensorProtos` container. -/
structure TensorProto where
  data_type : String
  dims : List Int
  float_data : List ℚ
  deriving Repr, DecidableEq

/-- The packing loop of `convertImages`: one FLOAT tensor with dims
`[N, C, height, width]`, every per-image vector checked against
`assert(values[i].size() == C * height * width)` and appended to the flat
payload. -/
def packTensor (C : Int) (values : List (List ℚ)) (height width : Int) :
    Except String TensorProto :=
  if values.all fun v => ((v.length : Int) = C * height * width : Bool) then
    .ok { data_type := "FLOAT"
          dims := [(values.length : Int), C, height, width]
          float_data := values.flatten }
  else .error "assert: values[i].size() == C*height*width"

/-- `convertImages`: resolve the file list, run the per-image loop from
`height = width = -1`, pack, and hand the container to the writer (the
writer is external; the run's output is the container itself, identical
for the binary and text encodings). -/
def convertImages (decC : String → Mat Col) (decG : String → Mat Nat)
    (resC : Mat Col → Nat → Nat → List (List Col))
    (resG : Mat Nat → Nat → Nat → List (List Nat))
    (readLines : String → List String) (cfg : Cfg) :
    Except String (List TensorProto) :=
  match getFileNames cfg readLines with
  | .error e => .error e
  | .ok file_names =>
    let C : Int := if cfg.color then 3 else 1
    match accLoop decC decG resC resG cfg file_names ([], -1, -1) with
    | .error e => .error e
    | .ok acc =>
      match packTensor C acc.1 acc.2.1 acc.2.2 with
      | .error e => .error e
      | .ok t => .ok [t]

/-- Which raw channel output channel `k` reads, per the spec's wording:
raw channel `k` when the swap flag is false and raw channel `2 - k` when
it is true. -/
def srcChan (swap : Bool) (k : Fin 3) : Fin 3 :=
  if swap then 2 - k else k

/-- The spec's description of the color output: planar channel-major —
the full plane of output channel 0, then channel 1, then channel 2, the
plane entry for pixel `i` being `normPix` of the raw channel `srcChan`
selects. -/
def planarColor (s : PreState) (m : Mat Col) : List ℚ :=
  (m.data.flatten.map fun p => normPix s 0 (p (srcChan s.bgrtorgb 0))) ++
    ((m.data.flatten.map fun p => normPix s 1 (p (srcChan s.bgrtorgb 1))) ++
      (m.data.flatten.map fun p => normPix s 2 (p (srcChan s.bgrtorgb 2))))

/-- The spec's description of the grayscale output: a single plane using
the index-0 parameters. -/
def planarGray (s : PreState) (m : Mat Nat) : List ℚ :=
  m.data.flatten.map fun v => normPix s 0 v

/-! ### Helper lemmas about the preprocess step fold -/

lemma applySteps_append (l₁ l₂ : List String) (s : PreState) :
    applySteps (l₁ ++ l₂) s =
      match applySteps l₁ s with
      | .ok s' => applySteps l₂ s'
      | .error e => .error e := by
  induction l₁ generalizing s with
  | nil => rfl
  | cons st rest ih =>
    simp only [List.cons_append, applySteps]
    cases applyStep s st with
    | ok s' => exact ih s'
    | error e => rfl

lemma applySteps_bgr_only (l : List String) (hl : ∀ st ∈ l, st = "bgrtorgb")
    (s : PreState) :
    ∃ b, applySteps l s = .ok { s with bgrtorgb := b } := by
  induction l generalizing s with
  | nil => exact ⟨s.bgrtorgb, rfl⟩
  | cons st rest ih =>
    have hst : st = "bgrtorgb" := hl st (by simp)
    subst hst
    have hone : applyStep s "bgrtorgb" = .ok { s with bgrtorgb := true } := rfl
    obtain ⟨b, hb⟩ := ih (fun st hm => hl st (by simp [hm])) { s with bgrtorgb := true }
    exact ⟨b, by simp only [applySteps, hone]; exact hb⟩

lemma applyStep_unknown (s : PreState) (step : String)
    (h1 : step ≠ "subtract128") (h2 : step ≠ "normalize") (h3 : step ≠ "mean")
    (h4 : step ≠ "std") (h5 : step ≠ "bgrtorgb") :
    applyStep s step = .error "Unsupported preprocess step" := by
  simp [applyStep, h1, h2, h3, h4, h5]

lemma applySteps_unknown (steps : List String) (step : String) (hmem : step ∈ steps)
    (hbad : step ∉ (["subtract128", "normalize", "mean", "std", "bgrtorgb"] : List String))
    (s : PreState) :
    ∃ e, applySteps steps s = .error e := by
  induction steps generalizing s with
  | nil => cases hmem
  | cons st rest ih =>
    by_cases hst : st = step
    · subst hst
      simp only [List.mem_cons, List.mem_singleton] at hbad
      push_neg at hbad
      have := applyStep_unknown s st hbad.1 hbad.2.1 hbad.2.2.1 hbad.2.2.2.1
        hbad.2.2.2.2.1
      exact ⟨"Unsupported preprocess step", by simp only [applySteps, this]⟩
    · rcases List.mem_cons.mp hmem with h | h
      · exact absurd h.symm hst
      · cases happ : applyStep s st with
        | error e => exact ⟨e, by simp only [applySteps, happ]⟩
        | ok s' =>
          obtain ⟨e, he⟩ := ih h s'
          exact ⟨e, by simp only [applySteps, happ]; exact he⟩

/-! ### C8 — unrecognized preprocess step -/

/-- C8: for every preprocess step list containing a name outside the
vocabulary {subtract128, normalize, mean, std, bgrtorgb}, the normalizer
(`convertToVector`) raises the fatal configuration error
(`CAFFE_ENFORCE(false, ...)`); an unrecognized step is never silently
ignored. -/
theorem convertToVector_unknown_step_error (steps : List String) (img : Img)
    (step : String) (hmem : step ∈ steps)
    (hbad : step ∉ (["subtract128", "normalize", "mean", "std", "bgrtorgb"] : List String)) :
    ∃ e, convertToVector steps img = .error e := by
  obtain ⟨e, he⟩ := applySteps_unknown steps step hmem hbad initState
  refine ⟨e, ?_⟩
  unfold convertToVector
  rw [he]

/-- Witness for C8 at the concrete list ["subtract128", "swaprb"]. -/
theorem convertToVector_unknown_step_error_witness :
    ∃ e, convertToVector ["subtract128", "swaprb"]
      (.gray { rows := 1, cols := 1, data := [[7]] }) = .error e :=
  convertToVector_unknown_step_error ["subtract128", "swaprb"]
    (.gray { rows := 1, cols := 1, data := [[7]] }) "swaprb"
    (by simp) (by decide)

/-! ### C7 — subtract128 followed later by normalize -/

/-- C7 counterexample: the step list ["subtract128", "mean", "normalize"]
contains `subtract128` followed later by `normalize`, yet the final mean
is (0.406, 0.456, 0.485), not (128, 128, 128): an intervening `mean` step
overrides the mean set by `subtract128`. -/
theorem applySteps_subtract128_mean_normalize_cex :
    ∃ s, applySteps ["subtract128", "mean", "normalize"] initState = .ok s ∧
      s.mean 0 ≠ 128 ∧ s.normalize = ![255, 255, 255] := by
  refine ⟨_, rfl, ?_, rfl⟩
  show (0.406 : ℚ) ≠ 128
  norm_num

/-- C7 (amended): if `subtract128` is followed later by `normalize` and
every step between or after the two is `bgrtorgb` (which touches none of
the three parameter vectors), then the final state has
normalize = (255,255,255), mean = (128,128,128), std = (1,1,1); each step
overrides only its own fields. -/
theorem applySteps_subtract128_then_normalize
    (pre mid post : List String) (s : PreState)
    (hmid : ∀ st ∈ mid, st = "bgrtorgb") (hpost : ∀ st ∈ post, st = "bgrtorgb")
    (h : applySteps (pre ++ "subtract128" :: (mid ++ "normalize" :: post)) initState
          = .ok s) :
    s.normalize = ![255, 255, 255] ∧ s.mean = ![128, 128, 128] ∧
      s.std = ![1, 1, 1] := by
  rw [applySteps_append] at h
  cases hp : applySteps pre initState with
  | error e => rw [hp] at h; cases h
  | ok s₁ =>
    rw [hp] at h
    have h128 : applyStep s₁ "subtract128" =
        .ok { s₁ with mean := ![128, 128, 128], std := ![1, 1, 1],
                      normalize := ![1, 1, 1] } := rfl
    simp only [applySteps, h128] at h
    rw [applySteps_append] at h
    obtain ⟨b, hb⟩ := applySteps_bgr_only mid hmid
      { s₁ with mean := ![128, 128, 128], std := ![1, 1, 1], normalize := ![1, 1, 1] }
    rw [hb] at h
    have hnorm : applyStep
        { s₁ with mean := ![128, 128, 128], std := ![1, 1, 1],
                  normalize := ![1, 1, 1], bgrtorgb := b } "normalize" =
        .ok { s₁ with mean := ![128, 128, 128], std := ![1, 1, 1],
                      normalize := ![255, 255, 255], bgrtorgb := b } := rfl
    simp only [applySteps, hnorm] at h
    obtain ⟨b', hb'⟩ := applySteps_bgr_only post hpost
      { s₁ with mean := ![128, 128, 128], std := ![1, 1, 1],
                normalize := ![255, 255, 255], bgrtorgb := b }
    rw [hb'] at h
    cases h
    exact ⟨rfl, rfl, rfl⟩

/-- Witness for C7's amended theorem at
pre = [], mid = ["bgrtorgb"], post = []. -/
theorem applySteps_subtract128_then_normalize_witness :
    ∃ s, applySteps ["subtract128", "bgrtorgb", "normalize"] initState = .ok s ∧
      s.normalize = ![255, 255, 255] ∧ s.mean = ![128, 128, 128] ∧
        s.std = ![1, 1, 1] :=
  ⟨_, rfl, applySteps_subtract128_then_normalize [] ["bgrtorgb"] [] _
    (by simp) (by simp) rfl⟩

/-! ### C9 — input-source selection -/

/-- C9 counterexample: supplying both input-source options at once is not
an error — the run proceeds using the literal path list (here "a.png")
and silently ignores the manifest file. -/
theorem getFileNames_both_supplied_no_error :
    getFileNames
      { color := true, cropH := -1, cropW := -1, input_images := "a.png",
        input_image_file := "list.txt", preprocess := [], scale := 256,
        text_output := false, warp := false }
      (fun _ => ["x.png", "y.png"]) = .ok ["a.png"] := rfl

/-- C9 (amended): supplying neither input-source option is a fatal
configuration error raised before any decode attempt (the run fails for
every decoder); supplying both at once is not an error — the literal
comma-separated list takes precedence and the manifest file is never
read. -/
theorem input_source_selection (decC : String → Mat Col) (decG : String → Mat Nat)
    (resC : Mat Col → Nat → Nat → List (List Col))
    (resG : Mat Nat → Nat → Nat → List (List Nat))
    (readLines : String → List String) (cfg : Cfg) :
    (cfg.input_images = "" → cfg.input_image_file = "" →
      convertImages decC decG resC resG readLines cfg =
        .error "assert(false): no input images") ∧
    (cfg.input_images ≠ "" →
      getFileNames cfg readLines = .ok (csplit cfg.input_images)) := by
  constructor
  · intro h1 h2
    have hg : getFileNames cfg readLines = .error "assert(false): no input images" := by
      simp [getFileNames, h1, h2]
    unfold convertImages
    rw [hg]
  · intro h1
    simp [getFileNames, h1]

/-- Witness for C9's amended theorem: with both options empty the run
errors for a concrete decoder, and with both supplied the literal list is
used. -/
theorem input_source_selection_witness :
    convertImages (fun _ => { rows := 1, cols := 1, data := [[![0, 0, 0]]] })
      (fun _ => { rows := 1, cols := 1, data := [[0]] })
      (fun _ _ _ => []) (fun _ _ _ => []) (fun _ => [])
      { color := true, cropH := -1, cropW := -1, input_images := "",
        input_image_file := "", preprocess := [], scale := 256,
        text_output := false, warp := false } =
      .error "assert(false): no input images" ∧
    getFileNames
      { color := true, cropH := -1, cropW := -1, input_images := "a,b",
        input_image_file := "m.txt", preprocess := [], scale := 256,
        text_output := false, warp := false } (fun _ => ["z"]) =
      .ok (csplit "a,b") :=
  ⟨(input_source_selection (fun _ => { rows := 1, cols := 1, data := [[![0, 0, 0]]] })
      (fun _ => { rows := 1, cols := 1, data := [[0]] })
      (fun _ _ _ => []) (fun _ _ _ => []) (fun _ => [])
      { color := true, cropH := -1, cropW := -1, input_images := "",
        input_image_file := "", preprocess := [], scale := 256,
        text_output := false, warp := false }).1 rfl rfl,
    (input_source_selection (fun _ => { rows := 1, cols := 1, data := [[![0, 0, 0]]] })
      (fun _ => { rows := 1, cols := 1, data := [[0]] })
      (fun _ _ _ => []) (fun _ _ _ => []) (fun _ => ["z"])
      { color := true, cropH := -1, cropW := -1, input_images := "a,b",
        input_image_file := "m.txt", preprocess := [], scale := 256,
        text_output := false, warp := false }).2 (by decide)⟩

/-! ### C10 — the warp flag is dead -/

lemma accLoop_warp (decC : String → Mat Col) (decG : String → Mat Nat)
    (resC : Mat Col → Nat → Nat → List (List Col))
    (resG : Mat Nat → Nat → Nat → List (List Nat)) (cfg : Cfg) (b : Bool)
    (l : List String) (acc : List (List ℚ) × Int × Int) :
    accLoop decC decG resC resG { cfg with warp := b } l acc =
      accLoop decC decG resC resG cfg l acc := by
  induction l generalizing acc with
  | nil => rfl
  | cons f rest ih =>
    have hone : accImage decC decG resC resG { cfg with warp := b } acc f =
        accImage decC decG resC resG cfg acc f := rfl
    simp only [accLoop, hone]
    cases accImage decC decG resC resG cfg acc f with
    | error e => rfl
    | ok acc' => exact ih acc'

/-- C10: two runs whose configurations differ only in the `warp` flag
produce identical results — `FLAGS_warp` is defined but read by no stage
of the pipeline, so it has no effect on the serialized container. -/
theorem convertImages_warp_irrelevant (decC : String → Mat Col)
    (decG : String → Mat Nat) (resC : Mat Col → Nat → Nat → List (List Col))
    (resG : Mat Nat → Nat → Nat → List (List Nat))
    (readLines : String → List String) (cfg : Cfg) (b : Bool) :
    convertImages decC decG resC resG readLines { cfg with warp := b } =
      convertImages decC decG resC resG readLines cfg := by
  have hg : getFileNames { cfg with warp := b } readLines =
      getFileNames cfg readLines := rfl
  unfold convertImages
  rw [hg, show ({ cfg with warp := b } : Cfg).color = cfg.color from rfl]
  cases getFileNames cfg readLines with
  | error e => rfl
  | ok fns => simp only [accLoop_warp]

/-! ### C4 — the resizer -/

/-- C4: with scale target `S ≤ 0` the resizer returns the input
unchanged; with `S > 0` the shorter of (rows, cols) becomes exactly `S`,
the longer becomes the truncation of `longer * S / shorter`, and hence
`min(outRows, outCols) = S`. -/
theorem resizeImage_spec {α : Type} (resample : Mat α → Nat → Nat → List (List α))
    (scale : Int) (img : Mat α) (hr : 0 < img.rows) (hc : 0 < img.cols) :
    (scale ≤ 0 → resizeImage resample scale img = img) ∧
    (0 < scale →
      min (resizeImage resample scale img).rows
          (resizeImage resample scale img).cols = scale.toNat ∧
      (img.cols < img.rows →
        (resizeImage resample scale img).cols = scale.toNat ∧
        (resizeImage resample scale img).rows
          = (⌊((img.rows : ℚ) * (scale : ℚ) / (img.cols : ℚ))⌋).toNat) ∧
      (img.rows ≤ img.cols →
        (resizeImage resample scale img).rows = scale.toNat ∧
        (resizeImage resample scale img).cols
          = (⌊((img.cols : ℚ) * (scale : ℚ) / (img.rows : ℚ))⌋).toNat)) := by
  constructor
  · intro h; simp [resizeImage, h]
  · intro hpos
    have hns : ¬ scale ≤ 0 := by omega
    have key : ∀ a b : Nat, 0 < a → a ≤ b →
        scale.toNat ≤ (⌊((b : ℚ) * (scale : ℚ) / (a : ℚ))⌋).toNat := by
      intro a b ha hab
      have ha' : (0 : ℚ) < (a : ℚ) := by exact_mod_cast ha
      have hab' : (a : ℚ) ≤ (b : ℚ) := by exact_mod_cast hab
      have hs' : (0 : ℚ) < (scale : ℚ) := by exact_mod_cast hpos
      have h1 : (scale : ℚ) ≤ (b : ℚ) * (scale : ℚ) / (a : ℚ) := by
        rw [le_div_iff₀ ha']
        nlinarith
      have h2 : scale ≤ ⌊(b : ℚ) * (scale : ℚ) / (a : ℚ)⌋ := Int.le_floor.mpr h1
      omega
    by_cases hgt : img.cols < img.rows
    · have hk := key img.cols img.rows hc (le_of_lt hgt)
      have hout : resizeImage resample scale img =
          { rows := (⌊((img.rows : ℚ) * (scale : ℚ) / (img.cols : ℚ))⌋).toNat
            cols := scale.toNat
            data := resample img
              (⌊((img.rows : ℚ) * (scale : ℚ) / (img.cols : ℚ))⌋).toNat
              scale.toNat } := by
        simp [resizeImage, hns, hgt]
      rw [hout]
      exact ⟨by simpa using (by omega : min (⌊((img.rows : ℚ) * (scale : ℚ) /
          (img.cols : ℚ))⌋).toNat scale.toNat = scale.toNat),
        fun _ => ⟨rfl, rfl⟩, fun hle => absurd hle (by omega)⟩
    · have hle : img.rows ≤ img.cols := by omega
      have hk := key img.rows img.cols hr hle
      have hout : resizeImage resample scale img =
          { rows := scale.toNat
            cols := (⌊((img.cols : ℚ) * (scale : ℚ) / (img.rows : ℚ))⌋).toNat
            data := resample img scale.toNat
              (⌊((img.cols : ℚ) * (scale : ℚ) / (img.rows : ℚ))⌋).toNat } := by
        simp [resizeImage, hns, hgt]
      rw [hout]
      exact ⟨by simpa using (by omega : min scale.toNat
          (⌊((img.cols : ℚ) * (scale : ℚ) / (img.rows : ℚ))⌋).toNat = scale.toNat),
        fun hlt => absurd hlt (by omega), fun _ => ⟨rfl, rfl⟩⟩

/-- Witness for C4 at a concrete 2×3 image and scale 2. -/
theorem resizeImage_spec_witness :
    ((2 : Int) ≤ 0 →
      resizeImage (fun _ _ _ => []) 2
        ({ rows := 2, cols := 3, data := [[1, 2, 3], [4, 5, 6]] } : Mat Nat) =
        { rows := 2, cols := 3, data := [[1, 2, 3], [4, 5, 6]] }) ∧
    ((0 : Int) < 2 →
      min (resizeImage (fun _ _ _ => []) 2
            ({ rows := 2, cols := 3, data := [[1, 2, 3], [4, 5, 6]] } : Mat Nat)).rows
          (resizeImage (fun _ _ _ => []) 2
            ({ rows := 2, cols := 3, data := [[1, 2, 3], [4, 5, 6]] } : Mat Nat)).cols
        = (2 : Int).toNat ∧
      ((3 : Nat) < 2 →
        (resizeImage (fun _ _ _ => []) 2
          ({ rows := 2, cols := 3, data := [[1, 2, 3], [4, 5, 6]] } : Mat Nat)).cols
          = (2 : Int).toNat ∧
        (resizeImage (fun _ _ _ => []) 2
          ({ rows := 2, cols := 3, data := [[1, 2, 3], [4, 5, 6]] } : Mat Nat)).rows
          = (⌊((2 : ℚ) * ((2 : Int) : ℚ) / (3 : ℚ))⌋).toNat) ∧
      ((2 : Nat) ≤ 3 →
        (resizeImage (fun _ _ _ => []) 2
          ({ rows := 2, cols := 3, data := [[1, 2, 3], [4, 5, 6]] } : Mat Nat)).rows
          = (2 : Int).toNat ∧
        (resizeImage (fun _ _ _ => []) 2
          ({ rows := 2, cols := 3, data := [[1, 2, 3], [4, 5, 6]] } : Mat Nat)).cols
          = (⌊((3 : ℚ) * ((2 : Int) : ℚ) / (2 : ℚ))⌋).toNat)) :=
  resizeImage_spec (fun _ _ _ => []) 2
    { rows := 2, cols := 3, data := [[1, 2, 3], [4, 5, 6]] }
    (by decide) (by decide)

/-! ### C3 — the cropper -/

lemma centerOff_bounds (c w : Int) (_hw : 0 < w) :
    0 ≤ max 0 ((c - w).tdiv 2) ∧ max 0 ((c - w).tdiv 2) + min w c ≤ c := by
  rcases le_total w c with h | h
  · have h0 : 0 ≤ c - w := by omega
    have hed : (c - w).tdiv 2 = (c - w) / 2 := Int.tdiv_eq_ediv h0 (by norm_num)
    have h1 : 0 ≤ (c - w) / 2 := Int.ediv_nonneg h0 (by norm_num)
    have h2 : (c - w) / 2 ≤ c - w := Int.ediv_le_self 2 h0
    have hmax : max 0 ((c - w).tdiv 2) = (c - w) / 2 := by rw [hed]; exact max_eq_right h1
    have hmin : min w c = w := min_eq_left h
    rw [hmax, hmin]
    omega
  · have hneg : (c - w).tdiv 2 ≤ 0 := by
      have h0 : 0 ≤ w - c := by omega
      have h1 : 0 ≤ (w - c).tdiv 2 := Int.tdiv_nonneg h0 (by norm_num)
      have h2 : c - w = -(w - c) := by ring
      rw [h2, Int.neg_tdiv]
      omega
    have hmax : max 0 ((c - w).tdiv 2) = 0 := max_eq_left hneg
    have hmin : min w c = c := min_eq_right h
    rw [hmax, hmin]
    omega

lemma cropToRec_pos {α : Type} (img : Mat α) (height width : Int)
    (h : 0 < height ∧ 0 < width ∧
      ((img.rows : Int) ≠ height ∨ (img.cols : Int) ≠ width)) :
    cropToRec img height width =
      ({ rows := (effH img height).toNat
         cols := (effW img width).toNat
         data := ((img.data.drop (roiY img height).toNat).take
             (effH img height).toNat).map
           (fun row => (row.drop (roiX img width).toNat).take
             (effW img width).toNat) },
       effH img height, effW img width) := by
  unfold cropToRec
  rw [if_pos h]

/-- C3: the cropper is a no-op for `H ≤ 0`, `W ≤ 0`, or an exact size
match; otherwise it returns a well-formed contiguous copy of exactly
`effH × effW` pixels (`effH = min H rows`, `effW = min W cols`) taken at
the centered offsets `roiX = max 0 ((cols - W).tdiv 2)`,
`roiY = max 0 ((rows - H).tdiv 2)` (truncating integer division of the
original requested sizes), and the invariant
`0 ≤ roiX ∧ roiX + effW ≤ cols` (and symmetrically for Y) holds. -/
theorem cropToRec_spec {α : Type} (img : Mat α) (height width : Int)
    (hwf : img.wf) :
    ((height ≤ 0 ∨ width ≤ 0 ∨
        ((img.rows : Int) = height ∧ (img.cols : Int) = width)) →
      cropToRec img height width = (img, height, width)) ∧
    (0 < height → 0 < width →
      ((img.rows : Int) ≠ height ∨ (img.cols : Int) ≠ width) →
      (cropToRec img height width).2.1 = effH img height ∧
      (cropToRec img height width).2.2 = effW img width ∧
      0 ≤ roiX img width ∧
      roiX img width + effW img width ≤ (img.cols : Int) ∧
      0 ≤ roiY img height ∧
      roiY img height + effH img height ≤ (img.rows : Int) ∧
      (cropToRec img height width).1.rows = (effH img height).toNat ∧
      (cropToRec img height width).1.cols = (effW img width).toNat ∧
      (cropToRec img height width).1.wf ∧
      (∀ i j, i < (effH img height).toNat → j < (effW img width).toNat →
        ((cropToRec img height width).1.data[i]?.bind fun row => row[j]?) =
          (img.data[(roiY img height).toNat + i]?.bind
            fun row => row[(roiX img width).toNat + j]?))) := by
  constructor
  · intro h
    unfold cropToRec
    rw [if_neg]
    rintro ⟨h1, h2, h3⟩
    rcases h with h | h | ⟨ha, hb⟩
    · omega
    · omega
    · rcases h3 with h3 | h3 <;> contradiction
  · intro hh hw hne
    have hcond : 0 < height ∧ 0 < width ∧
        ((img.rows : Int) ≠ height ∨ (img.cols : Int) ≠ width) := ⟨hh, hw, hne⟩
    obtain ⟨hx0, hxw⟩ := centerOff_bounds (img.cols : Int) width hw
    obtain ⟨hy0, hyh⟩ := centerOff_bounds (img.rows : Int) height hh
    clear hne
    have hex : roiX img width + effW img width ≤ (img.cols : Int) := hxw
    have hey : roiY img height + effH img height ≤ (img.rows : Int) := hyh
    have hx0' : 0 ≤ roiX img width := hx0
    have hy0' : 0 ≤ roiY img height := hy0
    clear hxw hyh hx0 hy0
    have heW0 : 0 ≤ effW img width := le_min (by omega) (Int.natCast_nonneg _)
    have heH0 : 0 ≤ effH img height := le_min (by omega) (Int.natCast_nonneg _)
    rw [cropToRec_pos img height width hcond]
    refine ⟨rfl, rfl, hx0', hex, hy0', hey, rfl, rfl, ?_, ?_⟩
    · constructor
      · simp only [List.length_map, List.length_take, List.length_drop]
        rw [hwf.1, Nat.min_eq_left (by omega)]
      · intro row hrow
        simp only [List.mem_map] at hrow
        obtain ⟨orig, horig, rfl⟩ := hrow
        have horig' : orig ∈ img.data :=
          List.mem_of_mem_drop (List.mem_of_mem_take horig)
        have hlen : orig.length = img.cols := hwf.2 orig horig'
        simp only [List.length_take, List.length_drop, hlen]
        rw [Nat.min_eq_left (by omega)]
    · intro i j hi hj
      simp only [List.getElem?_map, List.getElem?_take, if_pos hi,
        List.getElem?_drop]
      cases himg : img.data[(roiY img height).toNat + i]? with
      | none => rfl
      | some row =>
        show ((row.drop (roiX img width).toNat).take (effW img width).toNat)[j]?
          = row[(roiX img width).toNat + j]?
        simp only [List.getElem?_take, if_pos hj, List.getElem?_drop]

/-- A concrete 4×4 test image. -/
def testMat4 : Mat Nat :=
  { rows := 4, cols := 4
    data := [[0, 1, 2, 3], [4, 5, 6, 7], [8, 9, 10, 11], [12, 13, 14, 15]] }

/-- Witness for C3 at a 4×4 image with a requested 2×3 crop. -/
theorem cropToRec_spec_witness :
    (cropToRec testMat4 2 3).2.1 = effH testMat4 2 ∧
      (cropToRec testMat4 2 3).1.wf :=
  ⟨((cropToRec_spec testMat4 2 3 (by decide)).2
      (by decide) (by decide) (by decide)).1,
    (((cropToRec_spec testMat4 2 3 (by decide)).2
      (by decide) (by decide) (by decide)).2.2.2.2.2.2.2.2).1⟩

/-! ### C1 — planar layout and per-value formula of convertToVector -/

lemma flatten_length {α : Type} (m : Mat α) (hwf : m.wf) :
    m.data.flatten.length = m.cols * m.rows := by
  rw [List.length_flatten]
  have : m.data.map List.length = List.replicate m.data.length m.cols := by
    refine List.eq_replicate_iff.mpr ⟨by simp, ?_⟩
    intro x hx
    simp only [List.mem_map] at hx
    obtain ⟨row, hrow, rfl⟩ := hx
    exact hwf.2 row hrow
  rw [this, List.sum_replicate, hwf.1, smul_eq_mul, Nat.mul_comm]

lemma getElem?_append_off {α : Type} (l1 l2 : List α) (n : Nat) :
    (l1 ++ l2)[l1.length + n]? = l2[n]? := by
  rw [List.getElem?_append_right (Nat.le_add_right _ _)]
  simp

lemma fillGray_length (s : PreState) (vs : List Nat) (i : Nat) (values : List ℚ) :
    (fillGray s vs i values).length = values.length := by
  induction vs generalizing i values with
  | nil => rfl
  | cons v rest ih => simp [fillGray, ih]

lemma fillColor_length (s : PreState) (size : Nat) (ps : List Col) (i : Nat)
    (values : List ℚ) :
    (fillColor s size ps i values).length = values.length := by
  induction ps generalizing i values with
  | nil => rfl
  | cons p rest ih => simp [fillColor, ih]

lemma fillGray_getElem_lt (s : PreState) (vs : List Nat) (i : Nat)
    (values : List ℚ) (j : Nat) (hj : j < i) :
    (fillGray s vs i values)[j]? = values[j]? := by
  induction vs generalizing i values with
  | nil => rfl
  | cons v rest ih =>
    simp only [fillGray]
    rw [ih (i + 1) _ (by omega), List.getElem?_set_ne (by omega)]

lemma fillGray_getElem (s : PreState) (vs : List Nat) (i : Nat)
    (values : List ℚ) (hlen : i + vs.length ≤ values.length)
    (t : Nat) (v : Nat) (hv : vs[t]? = some v) :
    (fillGray s vs i values)[i + t]? = some (normPix s 0 v) := by
  induction vs generalizing i values t with
  | nil => simp at hv
  | cons v0 rest ih =>
    simp only [List.length_cons] at hlen
    cases t with
    | zero =>
      simp only [List.getElem?_cons_zero, Option.some.injEq] at hv
      subst hv
      simp only [fillGray, Nat.add_zero]
      rw [fillGray_getElem_lt s rest (i + 1) _ i (by omega),
        List.getElem?_set_eq_of_lt _ (by omega)]
    | succ t' =>
      have hv' : rest[t']? = some v := by simpa using hv
      have harith : i + (t' + 1) = (i + 1) + t' := by omega
      simp only [fillGray]
      rw [harith]
      exact ih (i + 1) _ (by simp; omega) t' hv'

lemma fillColor_getElem_lt (s : PreState) (size : Nat) (ps : List Col) (i : Nat)
    (values : List ℚ) (hsz : i + ps.length ≤ size) (k : Fin 3) (j : Nat)
    (hj : j < i) :
    (fillColor s size ps i values)[(k : Nat) * size + j]? =
      values[(k : Nat) * size + j]? := by
  induction ps generalizing i values with
  | nil => rfl
  | cons p rest ih =>
    have hk3 : (k : Nat) = 0 ∨ (k : Nat) = 1 ∨ (k : Nat) = 2 := by
      have := k.isLt; omega
    have hi : i < size := by simp only [List.length_cons] at hsz; omega
    have hne2 : size + (size + i) ≠ (k : Nat) * size + j := by
      rcases hk3 with h | h | h <;> rw [h] <;> omega
    have hne1 : size + i ≠ (k : Nat) * size + j := by
      rcases hk3 with h | h | h <;> rw [h] <;> omega
    have hne0 : i ≠ (k : Nat) * size + j := by
      rcases hk3 with h | h | h <;> rw [h] <;> omega
    simp only [fillColor]
    rw [ih (i + 1) _ (by simp only [List.length_cons] at hsz; omega) (by omega),
      List.getElem?_set_ne hne2, List.getElem?_set_ne hne1,
      List.getElem?_set_ne hne0]

lemma fillColor_getElem (s : PreState) (size : Nat) (ps : List Col) (i : Nat)
    (values : List ℚ) (hlen : values.length = 3 * size)
    (hsz : i + ps.length = size) (k : Fin 3) (t : Nat) (p : Col)
    (hp : ps[t]? = some p) :
    (fillColor s size ps i values)[(k : Nat) * size + (i + t)]? =
      some (normPix s k (p (srcChan s.bgrtorgb k))) := by
  induction ps generalizing i values t with
  | nil => simp at hp
  | cons p0 rest ih =>
    have hk3 : (k : Nat) = 0 ∨ (k : Nat) = 1 ∨ (k : Nat) = 2 := by
      have := k.isLt; omega
    have hi : i < size := by simp only [List.length_cons] at hsz; omega
    cases t with
    | zero =>
      simp only [List.getElem?_cons_zero, Option.some.injEq] at hp
      subst hp
      simp only [fillColor, Nat.add_zero]
      rw [fillColor_getElem_lt s size rest (i + 1) _
        (by simp only [List.length_cons] at hsz; omega) k i (by omega)]
      rcases hk3 with hk | hk | hk
      · obtain rfl : k = 0 := Fin.ext hk
        rw [show ((0 : Fin 3) : Nat) * size + i = i from by simp]
        rw [List.getElem?_set_ne (by omega), List.getElem?_set_ne (by omega),
          List.getElem?_set_eq_of_lt _ (by rw [hlen]; omega)]
        have hchan : srcChan s.bgrtorgb 0 = if s.bgrtorgb then (2 : Fin 3) else 0 := by
          cases s.bgrtorgb <;> decide
        rw [hchan]
      · obtain rfl : k = 1 := Fin.ext hk
        rw [show ((1 : Fin 3) : Nat) * size + i = size + i from by simp]
        rw [List.getElem?_set_ne (by omega),
          List.getElem?_set_eq_of_lt _ (by simp only [List.length_set]; rw [hlen]; omega)]
        have hchan : srcChan s.bgrtorgb 1 = 1 := by
          cases s.bgrtorgb <;> decide
        rw [hchan]
      · obtain rfl : k = 2 := Fin.ext hk
        rw [show ((2 : Fin 3) : Nat) * size + i = size + (size + i) from by simp; omega]
        rw [List.getElem?_set_eq_of_lt _ (by simp only [List.length_set]; rw [hlen]; omega)]
        have hchan : srcChan s.bgrtorgb 2 = if s.bgrtorgb then (0 : Fin 3) else 2 := by
          cases s.bgrtorgb <;> decide
        rw [hchan]
    | succ t' =>
      have hp' : rest[t']? = some p := by simpa using hp
      have harith : (k : Nat) * size + (i + (t' + 1)) =
          (k : Nat) * size + ((i + 1) + t') := by omega
      simp only [fillColor]
      rw [harith]
      exact ih (i + 1) _ (by simp only [List.length_set, hlen])
        (by simp only [List.length_cons] at hsz; omega) t' hp'

lemma planarColor_length (s : PreState) (m : Mat Col) :
    (planarColor s m).length = 3 * m.data.flatten.length := by
  unfold planarColor
  rw [List.length_append, List.length_append, List.length_map, List.length_map,
    List.length_map]
  ring

lemma planarGray_length (s : PreState) (m : Mat Nat) :
    (planarGray s m).length = m.data.flatten.length := by
  unfold planarGray
  rw [List.length_map]

lemma planarColor_getElem (s : PreState) (m : Mat Col) (k : Fin 3) (j : Nat)
    (p : Col) (hj : j < m.data.flatten.length)
    (hp : m.data.flatten[j]? = some p) :
    (planarColor s m)[(k : Nat) * m.data.flatten.length + j]? =
      some (normPix s k (p (srcChan s.bgrtorgb k))) := by
  have hk3 : (k : Nat) = 0 ∨ (k : Nat) = 1 ∨ (k : Nat) = 2 := by
    have := k.isLt; omega
  have hidx0 : ∀ L : Nat, ((0 : Fin 3) : Nat) * L + j = j := by
    intro L; show 0 * L + j = j; omega
  have hidx1 : ∀ L : Nat, ((1 : Fin 3) : Nat) * L + j = L + j := by
    intro L; show 1 * L + j = L + j; omega
  have hidx2 : ∀ L : Nat, ((2 : Fin 3) : Nat) * L + j = L + (L + j) := by
    intro L; show 2 * L + j = L + (L + j); omega
  have hlen0 : (m.data.flatten.map fun p =>
      normPix s 0 (p (srcChan s.bgrtorgb 0))).length = m.data.flatten.length :=
    List.length_map _ _
  have hlen1 : (m.data.flatten.map fun p =>
      normPix s 1 (p (srcChan s.bgrtorgb 1))).length = m.data.flatten.length :=
    List.length_map _ _
  unfold planarColor
  rcases hk3 with hk | hk | hk
  · obtain rfl : k = 0 := Fin.ext hk
    rw [hidx0,
      List.getElem?_append_left (lt_of_lt_of_eq hj hlen0.symm),
      List.getElem?_map, hp]
    rfl
  · obtain rfl : k = 1 := Fin.ext hk
    rw [hidx1, ← hlen0, getElem?_append_off,
      List.getElem?_append_left (lt_of_lt_of_eq hj hlen1.symm),
      List.getElem?_map, hp]
    rfl
  · obtain rfl : k = 2 := Fin.ext hk
    rw [hidx2]
    nth_rewrite 1 [← hlen0]
    rw [← hlen1, getElem?_append_off, getElem?_append_off,
      List.getElem?_map, hp]
    rfl

lemma fillColor_eq_planar (s : PreState) (m : Mat Col) (hwf : m.wf) :
    fillColor s (m.cols * m.rows) m.data.flatten 0
      (List.replicate (3 * (m.cols * m.rows)) 0) = planarColor s m := by
  have hflat : m.data.flatten.length = m.cols * m.rows := flatten_length m hwf
  apply List.ext_getElem?
  intro q
  by_cases hq : q < 3 * (m.cols * m.rows)
  · have hs0 : 0 < m.cols * m.rows := by omega
    have hdm := Nat.div_add_mod q (m.cols * m.rows)
    have hk : q / (m.cols * m.rows) < 3 := Nat.div_lt_of_lt_mul (by omega)
    have hj : q % (m.cols * m.rows) < m.cols * m.rows := Nat.mod_lt q hs0
    obtain ⟨p, hp⟩ : ∃ p, m.data.flatten[q % (m.cols * m.rows)]? = some p := by
      rw [List.getElem?_eq_getElem (by omega)]
      exact ⟨_, rfl⟩
    have hcomm : (q / (m.cols * m.rows)) * (m.cols * m.rows) =
        (m.cols * m.rows) * (q / (m.cols * m.rows)) := Nat.mul_comm _ _
    have hq' : q = (q / (m.cols * m.rows)) * (m.cols * m.rows) +
        (0 + q % (m.cols * m.rows)) := by omega
    rw [hq']
    rw [fillColor_getElem s (m.cols * m.rows) m.data.flatten 0 _
      (by rw [List.length_replicate]) (by rw [hflat]; omega)
      ⟨q / (m.cols * m.rows), hk⟩ (q % (m.cols * m.rows)) p hp]
    rw [show (0 : Nat) + q % (m.cols * m.rows) = q % (m.cols * m.rows) from by omega]
    rw [show (q / (m.cols * m.rows)) * (m.cols * m.rows) =
      ((⟨q / (m.cols * m.rows), hk⟩ : Fin 3) : Nat) * m.data.flatten.length from by
        rw [hflat]]
    rw [planarColor_getElem s m ⟨q / (m.cols * m.rows), hk⟩ _ p
      (by rw [hflat]; omega) hp]
  · rw [List.getElem?_eq_none (by rw [fillColor_length, List.length_replicate]; omega),
      List.getElem?_eq_none (by rw [planarColor_length, hflat]; omega)]

lemma fillGray_eq_planar (s : PreState) (m : Mat Nat) (hwf : m.wf) :
    fillGray s m.data.flatten 0 (List.replicate (1 * (m.cols * m.rows)) 0) =
      planarGray s m := by
  have hflat : m.data.flatten.length = m.cols * m.rows := flatten_length m hwf
  apply List.ext_getElem?
  intro q
  by_cases hq : q < m.cols * m.rows
  · obtain ⟨v, hv⟩ : ∃ v, m.data.flatten[q]? = some v := by
      rw [List.getElem?_eq_getElem (by omega)]
      exact ⟨_, rfl⟩
    rw [show q = 0 + q from by omega]
    rw [fillGray_getElem s m.data.flatten 0 _
      (by rw [List.length_replicate, hflat]; omega) q v hv]
    rw [show (0 : Nat) + q = q from by omega]
    rw [planarGray, List.getElem?_map, hv]
    rfl
  · rw [List.getElem?_eq_none (by rw [fillGray_length, List.length_replicate]; omega),
      List.getElem?_eq_none (by rw [planarGray_length, hflat]; omega)]

/-- C1: for every preprocessing state derived from the step list, the
NormalizedVector is planar channel-major with value
`(src / normalize[k] - mean[k]) / std[k]` at plane position `i` of output
channel `k`, where `src` is pixel `i`'s raw channel `srcChan swap k`
(channel `k` when the swap flag is false, channel `2 - k` when true);
grayscale images produce a single plane using the index-0 parameters.
`planarColor`/`planarGray` transcribe exactly this layout description. -/
theorem convertToVector_planar (steps : List String) (st : PreState)
    (hs : applySteps steps initState = .ok st) (mc : Mat Col) (hc : mc.wf)
    (mg : Mat Nat) (hg : mg.wf) :
    convertToVector steps (.color mc) = .ok (planarColor st mc) ∧
      convertToVector steps (.gray mg) = .ok (planarGray st mg) := by
  constructor
  · unfold convertToVector
    rw [hs]
    exact congrArg Except.ok (fillColor_eq_planar st mc hc)
  · unfold convertToVector
    rw [hs]
    exact congrArg Except.ok (fillGray_eq_planar st mg hg)

/-- A concrete 1×2 color image whose two pixels are (B,G,R) = (10,20,30)
and (1,2,3). -/
def testMatC : Mat Col :=
  { rows := 1, cols := 2, data := [[![10, 20, 30], ![1, 2, 3]]] }

/-- A concrete 2×1 grayscale image. -/
def testMatG : Mat Nat := { rows := 2, cols := 1, data := [[9], [17]] }

/-- Witness for C1 with the `bgrtorgb` step: the swapped state is reached
and both conversions produce the planar vectors. -/
theorem convertToVector_planar_witness :
    convertToVector ["bgrtorgb"] (.color testMatC) =
      .ok (planarColor { initState with bgrtorgb := true } testMatC) ∧
    convertToVector ["bgrtorgb"] (.gray testMatG) =
      .ok (planarGray { initState with bgrtorgb := true } testMatG) :=
  convertToVector_planar ["bgrtorgb"] { initState with bgrtorgb := true } rfl
    testMatC (by decide) testMatG (by decide)

/-! ### C6 — the post-crop shape assertions -/

/-- A concrete 1×2 (non-square) color image. -/
def testMatWide : Mat Col :=
  { rows := 1, cols := 2, data := [[![10, 20, 30], ![1, 2, 3]]] }

/-- C6 (code bug): with the default crop "-1,-1" (crop disabled — a
configuration the spec treats as valid) and a non-square 1×2 image, the
effective height is 1 and the effective width is 2, yet `convertOneImage`
aborts: the source's second shape assertion compares `crop.rows` (not
`crop.cols`) against `width` — `assert(crop.rows == width)` — which fails
whenever the effective height differs from the effective width. -/
theorem convertOneImage_nonsquare_assert_fails :
    convertOneImage (fun _ => testMatWide)
      (fun _ => { rows := 1, cols := 2, data := [[0, 0]] })
      (fun _ _ _ => []) (fun _ _ _ => [])
      { color := true, cropH := -1, cropW := -1, input_images := "a.png",
        input_image_file := "", preprocess := [], scale := 0,
        text_output := false, warp := false } "a.png" =
      .error "assert: crop.rows == width" := rfl

/-! ### Helper lemmas for the batch loop (C2, C5) -/

lemma cropToRec_dims {α : Type} (img : Mat α) (h w : Int)
    (hcase : (0 < h ∧ 0 < w) ∨ (h = (img.rows : Int) ∧ w = (img.cols : Int))) :
    ((cropToRec img h w).1.rows : Int) = (cropToRec img h w).2.1 ∧
      ((cropToRec img h w).1.cols : Int) = (cropToRec img h w).2.2 ∧
      0 ≤ (cropToRec img h w).2.1 ∧ 0 ≤ (cropToRec img h w).2.2 := by
  by_cases hc : 0 < h ∧ 0 < w
  · unfold cropToRec
    split
    next hcond =>
      have heH0 : 0 ≤ effH img h := le_min hc.1.le (Int.natCast_nonneg _)
      have heW0 : 0 ≤ effW img w := le_min hc.2.le (Int.natCast_nonneg _)
      exact ⟨Int.toNat_of_nonneg heH0, Int.toNat_of_nonneg heW0, heH0, heW0⟩
    next hcond =>
      have heq : (img.rows : Int) = h ∧ (img.cols : Int) = w := by
        by_contra hne
        exact hcond ⟨hc.1, hc.2, by tauto⟩
      refine ⟨heq.1, heq.2, ?_, ?_⟩
      · show 0 ≤ h
        omega
      · show 0 ≤ w
        omega
  · obtain ⟨hh, hw⟩ : h = (img.rows : Int) ∧ w = (img.cols : Int) := by tauto
    have hcond : ¬(0 < h ∧ 0 < w ∧
        ((img.rows : Int) ≠ h ∨ (img.cols : Int) ≠ w)) := by
      rintro ⟨h1, h2, h3⟩
      rcases h3 with h3 | h3 <;> omega
    unfold cropToRec
    rw [if_neg hcond]
    refine ⟨hh.symm, hw.symm, ?_, ?_⟩
    · show 0 ≤ h
      omega
    · show 0 ≤ w
      omega

lemma cropImg_dims (img : Img) (h w : Int)
    (hcase : (0 < h ∧ 0 < w) ∨ (h = (img.rows : Int) ∧ w = (img.cols : Int))) :
    ((cropImg img h w).1.rows : Int) = (cropImg img h w).2.1 ∧
      ((cropImg img h w).1.cols : Int) = (cropImg img h w).2.2 ∧
      0 ≤ (cropImg img h w).2.1 ∧ 0 ≤ (cropImg img h w).2.2 := by
  cases img with
  | gray m =>
    simpa [cropImg, Img.rows, Img.cols] using
      cropToRec_dims m h w (by simpa [Img.rows, Img.cols] using hcase)
  | color m =>
    simpa [cropImg, Img.rows, Img.cols] using
      cropToRec_dims m h w (by simpa [Img.rows, Img.cols] using hcase)

lemma cropImg_channels (img : Img) (h w : Int) :
    (cropImg img h w).1.channels = img.channels := by
  cases img <;> rfl

lemma resizeImg_channels (resG : Mat Nat → Nat → Nat → List (List Nat))
    (resC : Mat Col → Nat → Nat → List (List Col)) (scale : Int) (img : Img) :
    (resizeImg resG resC scale img).channels = img.channels := by
  cases img <;> rfl

lemma convertToVector_length (steps : List String) (img : Img) (v : List ℚ)
    (h : convertToVector steps img = .ok v) :
    v.length = img.channels * (img.cols * img.rows) := by
  unfold convertToVector at h
  cases happ : applySteps steps initState with
  | error e => rw [happ] at h; cases h
  | ok s =>
    rw [happ] at h
    cases img with
    | gray m =>
      cases h
      rw [Img.channels, Img.cols, Img.rows, fillGray_length, List.length_replicate]
    | color m =>
      cases h
      rw [Img.channels, Img.cols, Img.rows, fillColor_length, List.length_replicate]

lemma postCrop_ok (steps : List String) (r : Img × Int × Int)
    (v : List ℚ) (oh ow : Int) (h : postCrop steps r = .ok (v, oh, ow)) :
    oh = r.2.1 ∧ ow = r.2.2 ∧ convertToVector steps r.1 = .ok v := by
  unfold postCrop at h
  split at h
  · split at h
    · cases hconv : convertToVector steps r.1 with
      | error e => rw [hconv] at h; cases h
      | ok v' =>
        rw [hconv] at h
        injection h with hpair
        obtain ⟨hv, hrest⟩ := Prod.mk.inj hpair
        obtain ⟨h21, h22⟩ := Prod.mk.inj hrest
        exact ⟨h21.symm, h22.symm, by rw [hv]⟩
    · cases h
  · cases h

lemma cropSize_case (cfg : Cfg) (resized : Img) :
    (0 < (cropSize cfg resized).1 ∧ 0 < (cropSize cfg resized).2) ∨
      ((cropSize cfg resized).1 = (resized.rows : Int) ∧
        (cropSize cfg resized).2 = (resized.cols : Int)) := by
  unfold cropSize
  split
  · right; exact ⟨rfl, rfl⟩
  next hcond =>
    left
    push_neg at hcond
    exact ⟨by omega, by omega⟩

lemma loadImage_channels (decC : String → Mat Col) (decG : String → Mat Nat)
    (cfg : Cfg) (f : String) :
    (loadImage decC decG cfg f).channels = (if cfg.color then 3 else 1) := by
  unfold loadImage
  cases cfg.color <;> rfl

lemma convertOneImage_ok (decC : String → Mat Col) (decG : String → Mat Nat)
    (resC : Mat Col → Nat → Nat → List (List Col))
    (resG : Mat Nat → Nat → Nat → List (List Nat)) (cfg : Cfg) (f : String)
    (v : List ℚ) (oh ow : Int)
    (h : convertOneImage decC decG resC resG cfg f = .ok (v, oh, ow)) :
    0 ≤ oh ∧ 0 ≤ ow ∧
      (v.length : Int) = (if cfg.color then 3 else 1) * oh * ow := by
  unfold convertOneImage at h
  split at h
  · cases h
  · obtain ⟨hoh, how, hconv⟩ := postCrop_ok _ _ _ _ _ h
    have hcase := cropSize_case cfg
      (resizeImg resG resC cfg.scale (loadImage decC decG cfg f))
    obtain ⟨hrowsEq, hcolsEq, hnn1, hnn2⟩ := cropImg_dims
      (resizeImg resG resC cfg.scale (loadImage decC decG cfg f))
      (cropSize cfg (resizeImg resG resC cfg.scale (loadImage decC decG cfg f))).1
      (cropSize cfg (resizeImg resG resC cfg.scale (loadImage decC decG cfg f))).2
      hcase
    subst hoh
    subst how
    have hlen := convertToVector_length cfg.preprocess _ v hconv
    have hchan : (cropImg (resizeImg resG resC cfg.scale (loadImage decC decG cfg f))
        (cropSize cfg (resizeImg resG resC cfg.scale (loadImage decC decG cfg f))).1
        (cropSize cfg (resizeImg resG resC cfg.scale
          (loadImage decC decG cfg f))).2).1.channels =
        (if cfg.color then 3 else 1) := by
      rw [cropImg_channels, resizeImg_channels, loadImage_channels]
    refine ⟨hnn1, hnn2, ?_⟩
    rw [hlen, hchan]
    have hsplit : ∀ (C a b : Nat), ((C * (a * b) : Nat) : Int) =
        ((C : Nat) : Int) * ((a : Int) * (b : Int)) := by
      intro C a b
      push_cast
      ring
    rw [hsplit, hrowsEq, hcolsEq]
    have hcast : (((if cfg.color then 3 else 1) : Nat) : Int) =
        (if cfg.color then 3 else 1) := by
      cases cfg.color <;> rfl
    rw [hcast]
    ring

lemma forall₂_mem_right {α β : Type} {R : α → β → Prop} :
    ∀ {l1 : List α} {l2 : List β}, List.Forall₂ R l1 l2 →
      ∀ b ∈ l2, ∃ a, R a b := by
  intro l1 l2 h
  induction h with
  | nil => intro b hb; cases hb
  | cons hr _ ih =>
    intro b hb
    rcases List.mem_cons.mp hb with rfl | hb
    · exact ⟨_, hr⟩
    · exact ih b hb

lemma accLoop_ok (decC : String → Mat Col) (decG : String → Mat Nat)
    (resC : Mat Col → Nat → Nat → List (List Col))
    (resG : Mat Nat → Nat → Nat → List (List Nat)) (cfg : Cfg) :
    ∀ (fnames : List String) (vals₀ : List (List ℚ)) (h₀ w₀ : Int)
      (vals : List (List ℚ)) (hgt wd : Int),
      accLoop decC decG resC resG cfg fnames (vals₀, h₀, w₀) = .ok (vals, hgt, wd) →
      ∃ tl, vals = vals₀ ++ tl ∧
        List.Forall₂ (fun f v =>
          convertOneImage decC decG resC resG cfg f = .ok (v, hgt, wd)) fnames tl ∧
        (¬(h₀ < 0 ∧ w₀ < 0) → hgt = h₀ ∧ wd = w₀) := by
  intro fnames
  induction fnames with
  | nil =>
    intro vals₀ h₀ w₀ vals hgt wd h
    cases h
    exact ⟨[], by simp, List.Forall₂.nil, fun _ => ⟨rfl, rfl⟩⟩
  | cons f rest ih =>
    intro vals₀ h₀ w₀ vals hgt wd h
    unfold accLoop at h
    cases hacc : accImage decC decG resC resG cfg (vals₀, h₀, w₀) f with
    | error e => rw [hacc] at h; cases h
    | ok acc' =>
      rw [hacc] at h
      unfold accImage at hacc
      cases hone : convertOneImage decC decG resC resG cfg f with
      | error e => rw [hone] at hacc; cases hacc
      | ok vhw =>
        obtain ⟨v, oh, ow⟩ := vhw
        rw [hone] at hacc
        replace hacc : (if h₀ < 0 ∧ w₀ < 0 then
            Except.ok (vals₀ ++ [v], oh, ow)
          else if h₀ = oh then
            if w₀ = ow then Except.ok (vals₀ ++ [v], h₀, w₀)
            else Except.error "assert: width == one_width"
          else Except.error "assert: height == one_height") = Except.ok acc' := hacc
        by_cases hest : h₀ < 0 ∧ w₀ < 0
        · rw [if_pos hest] at hacc
          cases hacc
          obtain ⟨tl', hvals, hfa, himp⟩ := ih (vals₀ ++ [v]) oh ow vals hgt wd h
          have hok := convertOneImage_ok decC decG resC resG cfg f v oh ow hone
          obtain ⟨hhgt, hwd⟩ := himp (by omega)
          subst hhgt; subst hwd
          exact ⟨v :: tl', by simpa using hvals,
            List.Forall₂.cons hone hfa, fun hcontra => absurd hest hcontra⟩
        · rw [if_neg hest] at hacc
          split at hacc
          next hh =>
            split at hacc
            next hww =>
              cases hacc
              obtain ⟨tl', hvals, hfa, himp⟩ := ih (vals₀ ++ [v]) h₀ w₀ vals hgt wd h
              obtain ⟨hhgt, hwd⟩ := himp hest
              subst hhgt; subst hwd
              refine ⟨v :: tl', by simpa using hvals, ?_, fun _ => ⟨rfl, rfl⟩⟩
              exact List.Forall₂.cons (by rw [hone, hh, hww]) hfa
            next hww => cases hacc
          next hh => cases hacc

/-! ### C2 — the packed batch tensor -/

/-- C2: a successful run over the resolved file list produces a container
with exactly one FLOAT tensor, dims `[N, C, H, W]` (`C` = 3 in color
mode, 1 in grayscale), whose flat payload is the concatenation of the
per-image NormalizedVectors in input order, each of length `C·H·W`. -/
theorem convertImages_packs_batch (decC : String → Mat Col)
    (decG : String → Mat Nat) (resC : Mat Col → Nat → Nat → List (List Col))
    (resG : Mat Nat → Nat → Nat → List (List Nat))
    (readLines : String → List String) (cfg : Cfg) (fnames : List String)
    (protos : List TensorProto)
    (hf : getFileNames cfg readLines = .ok fnames)
    (h : convertImages decC decG resC resG readLines cfg = .ok protos) :
    ∃ t vs hgt wd, protos = [t] ∧ t.data_type = "FLOAT" ∧
      t.dims = [(fnames.length : Int), (if cfg.color then 3 else 1), hgt, wd] ∧
      List.Forall₂ (fun f v =>
        convertOneImage decC decG resC resG cfg f = .ok (v, hgt, wd)) fnames vs ∧
      t.float_data = vs.flatten ∧
      ∀ v ∈ vs, (v.length : Int) = (if cfg.color then 3 else 1) * hgt * wd := by
  unfold convertImages at h
  rw [hf] at h
  replace h : (match accLoop decC decG resC resG cfg fnames ([], -1, -1) with
    | .error e => (Except.error e : Except String (List TensorProto))
    | .ok acc =>
      match packTensor (if cfg.color then 3 else 1) acc.1 acc.2.1 acc.2.2 with
      | .error e => .error e
      | .ok t => .ok [t]) = .ok protos := h
  cases hloop : accLoop decC decG resC resG cfg fnames ([], -1, -1) with
  | error e => rw [hloop] at h; cases h
  | ok acc =>
    rw [hloop] at h
    obtain ⟨vals, hgt, wd⟩ := acc
    obtain ⟨tl, hvals, hfa, _⟩ :=
      accLoop_ok decC decG resC resG cfg fnames [] (-1) (-1) vals hgt wd hloop
    simp only [List.nil_append] at hvals
    subst hvals
    have hN : vals.length = fnames.length := (List.Forall₂.length_eq hfa).symm
    replace h : (match packTensor (if cfg.color then 3 else 1) vals hgt wd with
      | .error e => (Except.error e : Except String (List TensorProto))
      | .ok t => .ok [t]) = .ok protos := h
    cases hpack : packTensor (if cfg.color then 3 else 1) vals hgt wd with
    | error e => rw [hpack] at h; cases h
    | ok t =>
      rw [hpack] at h
      replace h : (Except.ok [t] : Except String (List TensorProto)) =
        .ok protos := h
      cases h
      unfold packTensor at hpack
      cases hall : (vals.all fun v =>
          ((v.length : Int) = (if cfg.color then 3 else 1) * hgt * wd : Bool)) with
      | false =>
        rw [hall] at hpack
        simp at hpack
      | true =>
        rw [hall] at hpack
        simp only [if_pos rfl] at hpack
        cases hpack
        refine ⟨_, vals, hgt, wd, rfl, rfl, by rw [hN], hfa, rfl, ?_⟩
        intro v hv
        obtain ⟨f, hof⟩ := forall₂_mem_right hfa v hv
        exact (convertOneImage_ok decC decG resC resG cfg f v hgt wd hof).2.2

/-! ### C5 — the shared-shape batch invariant -/

/-- C5: (1) the first processed image's effective post-crop dimensions
become the batch's required height and width; (2) every appended
NormalizedVector has length exactly `C·H·W`; (3) a subsequent image whose
effective dimensions differ from the established pair makes the loop
abort with the corresponding `assert`; (4) when the loop aborts, the run
produces no output container. -/
theorem batch_shape_invariant (decC : String → Mat Col)
    (decG : String → Mat Nat) (resC : Mat Col → Nat → Nat → List (List Col))
    (resG : Mat Nat → Nat → Nat → List (List Nat))
    (readLines : String → List String) (cfg : Cfg) :
    (∀ (f : String) (rest : List String) (v : List ℚ) (oh ow : Int)
        (vals : List (List ℚ)) (hgt wd : Int),
      convertOneImage decC decG resC resG cfg f = .ok (v, oh, ow) →
      accLoop decC decG resC resG cfg (f :: rest) ([], -1, -1) =
        .ok (vals, hgt, wd) →
      hgt = oh ∧ wd = ow) ∧
    (∀ (fnames : List String) (vals : List (List ℚ)) (hgt wd : Int),
      accLoop decC decG resC resG cfg fnames ([], -1, -1) = .ok (vals, hgt, wd) →
      ∀ v ∈ vals, (v.length : Int) = (if cfg.color then 3 else 1) * hgt * wd) ∧
    (∀ (vals₀ : List (List ℚ)) (h₀ w₀ : Int) (f : String) (rest : List String)
        (v : List ℚ) (oh ow : Int),
      0 ≤ h₀ → 0 ≤ w₀ →
      convertOneImage decC decG resC resG cfg f = .ok (v, oh, ow) →
      (oh ≠ h₀ ∨ ow ≠ w₀) →
      ∃ e, accLoop decC decG resC resG cfg (f :: rest) (vals₀, h₀, w₀) =
        .error e) ∧
    (∀ (fnames : List String) (e : String),
      getFileNames cfg readLines = .ok fnames →
      accLoop decC decG resC resG cfg fnames ([], -1, -1) = .error e →
      convertImages decC decG resC resG readLines cfg = .error e) := by
  refine ⟨?_, ?_, ?_, ?_⟩
  · intro f rest v oh ow vals hgt wd h1 h2
    have hacc : accImage decC decG resC resG cfg ([], -1, -1) f =
        .ok ([v], oh, ow) := by
      simp [accImage, h1]
    unfold accLoop at h2
    rw [hacc] at h2
    replace h2 : accLoop decC decG resC resG cfg rest ([v], oh, ow) =
        .ok (vals, hgt, wd) := h2
    obtain ⟨_, _, _, himp⟩ :=
      accLoop_ok decC decG resC resG cfg rest [v] oh ow vals hgt wd h2
    have hok := convertOneImage_ok decC decG resC resG cfg f v oh ow h1
    exact himp (by omega)
  · intro fnames vals hgt wd h v hv
    obtain ⟨tl, hvals, hfa, _⟩ :=
      accLoop_ok decC decG resC resG cfg fnames [] (-1) (-1) vals hgt wd h
    simp only [List.nil_append] at hvals
    subst hvals
    obtain ⟨f, hof⟩ := forall₂_mem_right hfa v hv
    exact (convertOneImage_ok decC decG resC resG cfg f v hgt wd hof).2.2
  · intro vals₀ h₀ w₀ f rest v oh ow hnn1 hnn2 h1 hne
    have hcond : ¬(h₀ < 0 ∧ w₀ < 0) := by omega
    by_cases hh : h₀ = oh
    · have hww : ¬(w₀ = ow) := by rcases hne with h | h <;> omega
      have hacc : accImage decC decG resC resG cfg (vals₀, h₀, w₀) f =
          .error "assert: width == one_width" := by
        simp [accImage, h1, hcond, hh, hww]
        all_goals omega
      exact ⟨_, by unfold accLoop; rw [hacc]⟩
    · have hacc : accImage decC decG resC resG cfg (vals₀, h₀, w₀) f =
          .error "assert: height == one_height" := by
        simp [accImage, h1, hcond, hh]
      exact ⟨_, by unfold accLoop; rw [hacc]⟩
  · intro fnames e hgf hloop
    unfold convertImages
    rw [hgf]
    show (match accLoop decC decG resC resG cfg fnames ([], -1, -1) with
      | .error e => (Except.error e : Except String (List TensorProto))
      | .ok acc =>
        match packTensor (if cfg.color then 3 else 1) acc.1 acc.2.1 acc.2.2 with
        | .error e => .error e
        | .ok t => .ok [t]) = .error e
    rw [hloop]

/-! ### Concrete fixtures for the batch witnesses -/

def wMatA : Mat Col := { rows := 1, cols := 1, data := [[![2, 3, 4]]] }

def wMatB : Mat Col := { rows := 1, cols := 1, data := [[![5, 6, 7]]] }

def wMatB2 : Mat Col :=
  { rows := 2, cols := 2
    data := [[![1, 1, 1], ![1, 1, 1]], [![1, 1, 1], ![1, 1, 1]]] }

def wDecC : String → Mat Col := fun f => if f = "a" then wMatA else wMatB

def wDecC2 : String → Mat Col := fun f => if f = "a" then wMatA else wMatB2

def wDecG : String → Mat Nat := fun _ => { rows := 1, cols := 1, data := [[0]] }

def wResC : Mat Col → Nat → Nat → List (List Col) := fun _ _ _ => []

def wResG : Mat Nat → Nat → Nat → List (List Nat) := fun _ _ _ => []

def wCfg : Cfg :=
  { color := true, cropH := -1, cropW := -1, input_images := "a,b",
    input_image_file := "", preprocess := [], scale := 0,
    text_output := false, warp := false }

/-- Witness for C2: a concrete successful two-image run. -/
theorem convertImages_packs_batch_witness :
    ∃ protos, convertImages wDecC wDecG wResC wResG (fun _ => []) wCfg =
        .ok protos ∧
      ∃ t vs hgt wd, protos = [t] ∧ t.data_type = "FLOAT" ∧
        t.dims = [((["a", "b"] : List String).length : Int),
          (if wCfg.color then 3 else 1), hgt, wd] ∧
        List.Forall₂ (fun f v =>
          convertOneImage wDecC wDecG wResC wResG wCfg f = .ok (v, hgt, wd))
          ["a", "b"] vs ∧
        t.float_data = vs.flatten ∧
        ∀ v ∈ vs, (v.length : Int) = (if wCfg.color then 3 else 1) * hgt * wd :=
  ⟨_, rfl, convertImages_packs_batch wDecC wDecG wResC wResG (fun _ => []) wCfg
    ["a", "b"] _ rfl rfl⟩

/-- Witness for C5: the four parts at concrete runs — a successful
1×1-then-1×1 batch for establishment and lengths, and a 1×1-then-2×2
batch for the fatal mismatch and the absence of output. -/
theorem batch_shape_invariant_witness :
    ((1 : Int) = 1 ∧ (1 : Int) = 1) ∧
    (∃ vals, accLoop wDecC wDecG wResC wResG wCfg ["a", "b"] ([], -1, -1) =
        .ok (vals, 1, 1) ∧
      ∀ v ∈ vals, (v.length : Int) = (if wCfg.color then 3 else 1) * 1 * 1) ∧
    (∃ e, accLoop wDecC2 wDecG wResC wResG wCfg ["b"] ([], 1, 1) = .error e) ∧
    convertImages wDecC2 wDecG wResC wResG (fun _ => []) wCfg =
      .error "assert: height == one_height" :=
  ⟨(batch_shape_invariant wDecC wDecG wResC wResG (fun _ => []) wCfg).1
      "a" ["b"] _ 1 1 _ 1 1 rfl rfl,
   ⟨_, rfl, (batch_shape_invariant wDecC wDecG wResC wResG (fun _ => []) wCfg).2.1
      ["a", "b"] _ 1 1 rfl⟩,
   (batch_shape_invariant wDecC2 wDecG wResC wResG (fun _ => []) wCfg).2.2.1
      [] 1 1 "b" [] _ 2 2 (by norm_num) (by norm_num) rfl
      (Or.inl (by norm_num)),
   (batch_shape_invariant wDecC2 wDecG wResC wResG (fun _ => []) wCfg).2.2.2
      ["a", "b"] "assert: height == one_height" rfl rfl⟩

end ConvertImageToTensor
